import Mathlib

/-!
Verification of the field-normalization core of the Amazon pitch automation app
(`src/app.py`): ISRC validation, country resolution, genre/release-type business
rules, the extraction flow's error handling, and the review form's submit gating.

Python strings are modelled as Lean `String` (a list of characters); dict fields
that may be absent, `None`, or a string are modelled by `Field`; string methods
(`strip`, `lower`, `upper`, `replace`, `in`, `re.sub` with a literal pattern,
`re.match` with the fixed ISRC pattern) are modelled by explicit functions on
character lists, with Python's ASCII behaviour (the strings the rules compare
against are ASCII).  The external `pycountry` catalog is a parameter
(`CountryAPI`), and exceptions are modelled with `Except`/`Option`.
-/

namespace AmazonPitch

/-- A value stored under a key of a Python dict of optional strings:
the key may be absent, hold `None`, or hold a string. -/
inductive Field where
  | absent
  | null
  | str (s : String)
deriving DecidableEq, Repr

/-- Python `data.get(key, default)`: `none` models Python `None`. -/
def Field.get : Field → String → Option String
  | .absent, d => some d
  | .null, _ => none
  | .str s, _ => some s

/-- Store a Python value (None or a string) into a dict key. -/
def Field.ofPy : Option String → Field
  | none => .null
  | some s => .str s

/-- Python truthiness of a `None`-or-string value. -/
def pyTruthy : Option String → Bool
  | none => false
  | some s => s != ""

/-- The release record flowing through the pipeline (spec section 3);
`json.loads` output and `st.session_state.parsed_data` are dicts over
these keys. -/
structure Record where
  primary_artist : Field := .absent
  title : Field := .absent
  upc : Field := .absent
  isrc : Field := .absent
  release_date : Field := .absent
  description : Field := .absent
  label : Field := .absent
  latin_audience : Field := .absent
  genre : Field := .absent
  release_type : Field := .absent
  country_code : Field := .absent
  country_name : Field := .absent
deriving DecidableEq, Repr

/-! ### Python string primitives on character lists -/

/-- The backtick character. -/
def tick : Char := Char.ofNat 96

/-- Python `str.isspace` members relevant to `str.strip()` (ASCII range). -/
def isPySpace (c : Char) : Bool :=
  c == ' ' || c == '\t' || c == '\n' || c == '\r' || c == Char.ofNat 11 || c == Char.ofNat 12

/-- Python `str.strip()` on a character list. -/
def stripList (l : List Char) : List Char :=
  ((l.dropWhile isPySpace).reverse.dropWhile isPySpace).reverse

/-- Python `str.strip()`. -/
def pyStrip (s : String) : String := ⟨stripList s.data⟩

/-- Python `str.lower()` (ASCII range). -/
def pyLower (s : String) : String := ⟨s.data.map Char.toLower⟩

/-- Python `str.upper()` (ASCII range). -/
def pyUpper (s : String) : String := ⟨s.data.map Char.toUpper⟩

/-- Holds when `l` starts with `p`. -/
def isPre : List Char → List Char → Bool
  | [], _ => true
  | _ :: _, [] => false
  | p :: ps, c :: cs => p == c && isPre ps cs

/-- Python `pat in s` on character lists: `pat` occurs somewhere in the list. -/
def containsSub (pat : List Char) : List Char → Bool
  | [] => pat.isEmpty
  | c :: t => isPre pat (c :: t) || containsSub pat t

/-- Python `pat in s` for strings. -/
def pyIn (pat s : String) : Bool := containsSub pat.data s.data

/-- Python `re.sub(pat, "", s)` for a literal (regex-metacharacter-free)
pattern: delete the leftmost occurrence, continue scanning after it. -/
def removeSub (pat : List Char) : List Char → List Char
  | [] => []
  | c :: cs =>
    if isPre pat (c :: cs) then removeSub pat (cs.drop (pat.length - 1))
    else c :: removeSub pat cs
termination_by l => l.length
decreasing_by
  · simp only [List.length_drop, List.length_cons]
    omega
  · simp only [List.length_cons]
    omega

/-- Python `re.sub(pat, "", s)` on strings (literal pattern). -/
def removeOcc (s pat : String) : String := ⟨removeSub pat.data s.data⟩

/-! ### `clean_json_response` (src/app.py lines 27-32) -/

/-- Function `clean_json_response`: `re.sub("```json", "", ·)`, then `re.sub("```", "", ·)`,
then `.strip()`. -/
def clean_json_response (response_text : String) : String :=
  pyStrip (removeOcc (removeOcc response_text "```json") "```")

/-! ### `validate_isrc` (src/app.py lines 34-41) -/

/-- Regex class `[A-Z]`. -/
def isUpperAZ (c : Char) : Bool := 'A' ≤ c && c ≤ 'Z'

/-- Regex class `[0-9]`. -/
def isDigit09 (c : Char) : Bool := '0' ≤ c && c ≤ '9'

/-- Regex class `[A-Z0-9]`. -/
def isUpperAlnum (c : Char) : Bool := isUpperAZ c || isDigit09 c

/-- One full-width match of `[A-Z]{2}[A-Z0-9]{3}[0-9]{7}` (twelve characters). -/
def isrcCore : List Char → Bool
  | [a1, a2, x1, x2, x3, d1, d2, d3, d4, d5, d6, d7] =>
    isUpperAZ a1 && isUpperAZ a2 && isUpperAlnum x1 && isUpperAlnum x2 && isUpperAlnum x3 &&
    isDigit09 d1 && isDigit09 d2 && isDigit09 d3 && isDigit09 d4 && isDigit09 d5 &&
    isDigit09 d6 && isDigit09 d7
  | _ => false

/-- Python `bool(re.match(r"^[A-Z]{2}[A-Z0-9]{3}[0-9]{7}$", s))`.
In Python (without `re.MULTILINE`) `$` matches at the end of the string
or just before a single newline at the end of the string. -/
def reMatchISRC (l : List Char) : Bool :=
  isrcCore l || (l.getLast? == some '\n' && isrcCore l.dropLast)

/-- Python `isrc.replace("-", "")`. -/
def pyRemoveHyphens (s : String) : String := ⟨s.data.filter (fun c => c != '-')⟩

/-- Python `clean_isrc = isrc.replace("-", "").upper()`. -/
def cleanISRC (s : String) : String := pyUpper (pyRemoveHyphens s)

/-- Function `validate_isrc` (src/app.py lines 34-41): falsy input fails, otherwise
strip hyphens, upper-case and match the anchored pattern. -/
def validate_isrc : Option String → Bool
  | none => false
  | some s => if s = "" then false else reMatchISRC (cleanISRC s).data

/-! ### Country resolution (src/app.py lines 43-49 and 83-103) -/

/-- A `pycountry` catalog entry, with the two attributes the code reads. -/
structure Country where
  name : String
  alpha_2 : String
deriving DecidableEq, Repr

/-- The external `pycountry` collaborator: `countries.get(alpha_2=·)` returns a
country or nothing (any exception folded into `none`, matching the
`try/except` in `get_country_name`), and `countries.search_fuzzy(·)` either
returns a list of candidates or raises (`Except.error`). -/
structure CountryAPI where
  get_alpha_2 : String → Option Country
  search_fuzzy : String → Except Unit (List Country)

/-- Function `get_country_name` (src/app.py lines 43-49): look up the upper-cased code;
return the country's name, or `None` when absent or on exception. -/
def get_country_name (api : CountryAPI) (code : String) : Option String :=
  (api.get_alpha_2 (pyUpper code)).map Country.name

/-! ### `apply_business_logic` (src/app.py lines 51-105) -/

/-- Defaults block (lines 54-56): force `label` and `latin_audience`. -/
def applyDefaults (data : Record) : Record :=
  { data with label := .str "ONErpm", latin_audience := .str "Yes" }

/-- The genre lookup table `genre_map.get(g, g)` (lines 60-67). -/
def genreGet (g : String) : String :=
  if g = "Popular" then "Regional Mexican"
  else if g = "trapmambo" then "Urbano"
  else if g = "Electrónica" then "Electronic"
  else if g = "Cumbia" then "Tropical"
  else g

/-- Python `genre_map.get(genre, genre)` where `genre = data.get("genre", "")` may be
`None`; `None` is not a key of the map so it falls to the default. -/
def pyGenreGet : Option String → Option String
  | none => none
  | some g => some (genreGet g)

/-- Genre block (lines 58-67): `data["genre"] = genre_map.get(genre, genre)`. -/
def applyGenre (data : Record) : Record :=
  { data with genre := Field.ofPy (pyGenreGet (data.genre.get "")) }

/-- Release-type block (lines 69-81) as the new value of the field, given the
raw string fetched from the dict: substring checks on the trimmed lower-cased
value, `"New Single"` when trimmed-empty, otherwise the field keeps its
original (untrimmed) value. -/
def mapReleaseType (s : String) : String :=
  if pyIn "single + video" (pyLower (pyStrip s)) then "New Single"
  else if pyIn "album + video" (pyLower (pyStrip s)) then "New Album"
  else if pyIn "ep + video" (pyLower (pyStrip s)) then "New EP"
  else if pyStrip s = "" then "New Single"
  else s

/-- Country block (lines 83-103): runs only on a truthy `country_code`;
two-character codes go through `get_country_name` writing `country_name`
(empty on failure, code untouched); longer values go through `search_fuzzy`,
whose exception branch writes only `country_name = ""`. -/
def applyCountry (api : CountryAPI) (data : Record) : Record :=
  match data.country_code.get "" with
  | none => data
  | some cc =>
    if cc = "" then data
    else if cc.length = 2 then
      if pyTruthy (get_country_name api cc) then
        { data with country_name := Field.ofPy (get_country_name api cc) }
      else
        { data with country_name := .str "" }
    else
      match api.search_fuzzy cc with
      | .ok [] => data
      | .ok (c :: _) => { data with country_name := .str c.name, country_code := .str c.alpha_2 }
      | .error _ => { data with country_name := .str "" }

/-- Function `apply_business_logic` (src/app.py lines 51-105).  The only statement that
can raise on a record of optional string fields is
`data.get("release_type", "").strip()` when the stored value is `None`
(`AttributeError`); every other branch is total. -/
def apply_business_logic (api : CountryAPI) (data : Record) : Except String Record :=
  let d1 := applyDefaults data
  let d2 := applyGenre d1
  match d2.release_type.get "" with
  | none => .error "AttributeError"
  | some rt => .ok (applyCountry api { d2 with release_type := .str (mapReleaseType rt) })

/-! ### Extraction flow (src/app.py lines 116-167) -/

/-- Python truthiness of the parsed dict (`if parsed:`): a dict is truthy when
it has at least one key. -/
def pyRecTruthy (r : Record) : Bool :=
  r.primary_artist != .absent || r.title != .absent || r.upc != .absent ||
  r.isrc != .absent || r.release_date != .absent || r.description != .absent ||
  r.label != .absent || r.latin_audience != .absent || r.genre != .absent ||
  r.release_type != .absent || r.country_code != .absent || r.country_name != .absent

/-- Function `parse_release_data` (lines 116-157).  The collaborator call and its
`.text` are one opaque step `gen` (free text or exception); `json.loads` is an
opaque decoder `loads` (record or `JSONDecodeError`).  The `try` block
cleans, decodes, normalizes; any exception is caught and `None` returned. -/
def parse_release_data (api : CountryAPI) (gen : Except Unit String)
    (loads : String → Except Unit Record) : Option Record :=
  match gen with
  | .error _ => none
  | .ok rtext =>
    match loads (clean_json_response rtext) with
    | .error _ => none
    | .ok data =>
      match apply_business_logic api data with
      | .error _ => none
      | .ok d => some d

/-- The Parse Data button handler (lines 159-167): empty input only warns;
otherwise the session record is replaced only when `parse_release_data`
produced a truthy dict. -/
def parse_button (api : CountryAPI) (gen : Except Unit String)
    (loads : String → Except Unit Record) (raw_text : String) (state : Record) : Record :=
  if raw_text = "" then state
  else
    match parse_release_data api gen loads with
    | none => state
    | some parsed => if pyRecTruthy parsed then parsed else state

/-! ### Review form (src/app.py lines 170-228) -/

/-- The widget values of one run of the review form (each `st.text_input`
returns a string). -/
structure ReviewInputs where
  artist : String
  title : String
  upc : String
  isrc : String
  label : String
  release_date : String
  country_input : String
  description : String
  genre : String
  rtype : String
  latin_audience : String
deriving DecidableEq, Repr

/-- The ISRC check of the review form (lines 188-194): `isrc_valid` stays true
only for a non-empty value accepted by `validate_isrc`. -/
def isrcFormValid (isrc : String) : Bool :=
  if isrc = "" then false
  else if validate_isrc (some isrc) = false then false
  else true

/-- Python `st.session_state.parsed_data.update({...})` (lines 216-228): the eleven
edited fields overwrite the stored record; `country_input` lands in
`country_code` and `country_name` is untouched. -/
def updateFromForm (parsed : Record) (w : ReviewInputs) : Record :=
  { parsed with
    primary_artist := .str w.artist
    title := .str w.title
    upc := .str w.upc
    isrc := .str w.isrc
    label := .str w.label
    release_date := .str w.release_date
    country_code := .str w.country_input
    description := .str w.description
    genre := .str w.genre
    release_type := .str w.rtype
    latin_audience := .str w.latin_audience }

/-- The observable outcome of one run of the review form. -/
structure ReviewStep where
  disabled : Bool
  parsed : Record
  generated : Option ReviewInputs
deriving DecidableEq, Repr

/-- One run of the review form (lines 174-228).  The in-run computation
(`isrc_valid`, `disabled=not isrc_valid`, the update and script generation
under `if submitted:`) is from src/app.py.  Modelled from the spec: the
review surface is an external UI collaborator (a dumb input/output surface)
whose submit action is the rendered button, so a submit event is delivered
only while that button is enabled (`clicked && !disabled`). -/
def review_run (parsed : Record) (w : ReviewInputs) (clicked : Bool) : ReviewStep :=
  let isrc_valid := isrcFormValid w.isrc
  let disabled := !isrc_valid
  let submitted := clicked && !disabled
  if submitted then
    { disabled := disabled, parsed := updateFromForm parsed w, generated := some w }
  else
    { disabled := disabled, parsed := parsed, generated := none }

/-! ### Concrete fixtures for witnesses and counterexamples -/

/-- A catalog stub that resolves nothing (the country branch of the claims
under test either never consults it or must survive its failures). -/
def noApi : CountryAPI :=
  { get_alpha_2 := fun _ => none, search_fuzzy := fun _ => .error () }

/-- A one-entry catalog: `US` resolves to United States; fuzzy search finds
`United States` and fails on everything else. -/
def usApi : CountryAPI :=
  { get_alpha_2 := fun code =>
      if code = "US" then some { name := "United States", alpha_2 := "US" } else none,
    search_fuzzy := fun q =>
      if q = "United States" then .ok [{ name := "United States", alpha_2 := "US" }]
      else .error () }

/-! ### Structural lemmas about the normalizer -/

theorem applyDefaults_release_type (d : Record) : (applyDefaults d).release_type = d.release_type := rfl

theorem applyDefaults_label (d : Record) : (applyDefaults d).label = Field.str "ONErpm" := rfl

theorem applyDefaults_latin (d : Record) : (applyDefaults d).latin_audience = Field.str "Yes" := rfl

theorem applyGenre_release_type (d : Record) : (applyGenre d).release_type = d.release_type := rfl

theorem applyGenre_label (d : Record) : (applyGenre d).label = d.label := rfl

theorem applyGenre_latin (d : Record) : (applyGenre d).latin_audience = d.latin_audience := rfl

theorem applyGenre_genre (d : Record) :
    (applyGenre d).genre = Field.ofPy (pyGenreGet (d.genre.get "")) := rfl

/-- The country block touches only `country_code`/`country_name`. -/
theorem applyCountry_keeps (api : CountryAPI) (d : Record) :
    (applyCountry api d).label = d.label ∧ (applyCountry api d).latin_audience = d.latin_audience ∧
    (applyCountry api d).genre = d.genre ∧ (applyCountry api d).release_type = d.release_type := by
  unfold applyCountry
  split
  · exact ⟨rfl, rfl, rfl, rfl⟩
  · split
    · exact ⟨rfl, rfl, rfl, rfl⟩
    · split
      · split
        · exact ⟨rfl, rfl, rfl, rfl⟩
        · exact ⟨rfl, rfl, rfl, rfl⟩
      · split
        · exact ⟨rfl, rfl, rfl, rfl⟩
        · exact ⟨rfl, rfl, rfl, rfl⟩
        · exact ⟨rfl, rfl, rfl, rfl⟩

/-- The shape of a successful run of the normalizer. -/
theorem apply_eq' (api : CountryAPI) (data : Record) (rt : String)
    (h : data.release_type.get "" = some rt) :
    apply_business_logic api data =
      .ok (applyCountry api
        { applyGenre (applyDefaults data) with release_type := .str (mapReleaseType rt) }) := by
  have h2 : (applyGenre (applyDefaults data)).release_type.get "" = some rt := by
    rw [applyGenre_release_type, applyDefaults_release_type]; exact h
  simp only [apply_business_logic, h2]

/-- The normalizer raises exactly when the stored `release_type` is `None`. -/
theorem apply_eq_none (api : CountryAPI) (data : Record)
    (h : data.release_type = Field.null) :
    apply_business_logic api data = .error "AttributeError" := by
  have h2 : (applyGenre (applyDefaults data)).release_type.get "" = none := by
    rw [applyGenre_release_type, applyDefaults_release_type, h]; rfl
  simp only [apply_business_logic, h2]

/-- Field values of a successful run, given string-valued genre and
release-type inputs. -/
theorem apply_fields (api : CountryAPI) (data : Record) (g rt : String)
    (hg : data.genre = Field.str g) (hrt : data.release_type = Field.str rt) :
    ∃ r, apply_business_logic api data = Except.ok r ∧
      r.genre = Field.str (genreGet g) ∧ r.release_type = Field.str (mapReleaseType rt) ∧
      r.label = Field.str "ONErpm" ∧ r.latin_audience = Field.str "Yes" := by
  have hget : data.release_type.get "" = some rt := by rw [hrt]; rfl
  have hk := applyCountry_keeps api
    { applyGenre (applyDefaults data) with release_type := Field.str (mapReleaseType rt) }
  refine ⟨_, apply_eq' api data rt hget, ?_, ?_, ?_, ?_⟩
  · rw [hk.2.2.1]
    show (applyGenre (applyDefaults data)).genre = _
    rw [applyGenre_genre]
    show Field.ofPy (pyGenreGet ((data.genre).get "")) = _
    rw [hg]; rfl
  · rw [hk.2.2.2]
  · rw [hk.1]
    show (applyGenre (applyDefaults data)).label = _
    rw [applyGenre_label, applyDefaults_label]
  · rw [hk.2.1]
    show (applyGenre (applyDefaults data)).latin_audience = _
    rw [applyGenre_latin, applyDefaults_latin]

/-! ### Claim C1: totality of `apply_business_logic` on null-able fields -/

/-- Counterexample input for claim C1. -/
def recC1null : Record := { release_type := Field.null }

/-- C1 fails as stated: on a record whose `release_type` is null the
normalizer raises (`None.strip()` is an `AttributeError`) instead of
returning the record. -/
theorem C1_counterexample :
    apply_business_logic noApi recC1null = Except.error "AttributeError" :=
  apply_eq_none noApi recC1null rfl

/-- C1 amended: `apply_business_logic` is total and returns the (mutated)
record whenever the stored `release_type` is not null — in particular a null
`genre` or null `country_code` never raises — but a null `release_type`
raises. -/
theorem C1_amended (api : CountryAPI) (data : Record) (h : data.release_type ≠ Field.null) :
    ∃ r, apply_business_logic api data = Except.ok r := by
  cases hrel : data.release_type with
  | absent => exact ⟨_, apply_eq' api data "" (by rw [hrel]; rfl)⟩
  | null => exact absurd hrel h
  | str s => exact ⟨_, apply_eq' api data s (by rw [hrel]; rfl)⟩

/-- Witness input for claim C1: null genre and null country code. -/
def recC1nulls : Record := { genre := Field.null, country_code := Field.null }

theorem C1_witness : ∃ r, apply_business_logic noApi recC1nulls = Except.ok r :=
  C1_amended noApi recC1nulls (by decide)

/-! ### Claim C5: unconditional defaults -/

/-- C5: every record returned by the normalizer carries the forced defaults
`label = "ONErpm"` and `latin_audience = "Yes"`, whatever the input held. -/
theorem C5_defaults (api : CountryAPI) (data : Record) (r : Record)
    (h : apply_business_logic api data = Except.ok r) :
    r.label = Field.str "ONErpm" ∧ r.latin_audience = Field.str "Yes" := by
  cases hrel : data.release_type.get "" with
  | none =>
    have hnull : data.release_type = Field.null := by
      cases hd : data.release_type <;> rw [hd] at hrel <;> first | rfl | exact absurd hrel (by simp [Field.get])
    rw [apply_eq_none api data hnull] at h
    exact absurd h (by simp)
  | some rt =>
    rw [apply_eq' api data rt hrel] at h
    injection h with h2
    subst h2
    have hk := applyCountry_keeps api
      { applyGenre (applyDefaults data) with release_type := Field.str (mapReleaseType rt) }
    constructor
    · rw [hk.1]
      show (applyGenre (applyDefaults data)).label = _
      rw [applyGenre_label, applyDefaults_label]
    · rw [hk.2.1]
      show (applyGenre (applyDefaults data)).latin_audience = _
      rw [applyGenre_latin, applyDefaults_latin]

/-- Witness input for claim C5: both defaults previously populated with other
values. -/
def recC5in : Record :=
  { label := Field.str "X", latin_audience := Field.str "No", release_type := Field.str "Remix" }

/-- The record the normalizer actually returns on `recC5in`. -/
def recC5out : Record :=
  { label := Field.str "ONErpm", latin_audience := Field.str "Yes",
    genre := Field.str "", release_type := Field.str "Remix" }

theorem C5_witness : recC5out.label = Field.str "ONErpm" ∧ recC5out.latin_audience = Field.str "Yes" :=
  C5_defaults noApi recC5in recC5out rfl

/-! ### Claim C6: idempotence on genre / release_type / label / latin_audience -/

/-- The genre table's output values are never keys, so a second lookup is a
no-op. -/
theorem genreGet_idem (g : String) : genreGet (genreGet g) = genreGet g := by
  by_cases h1 : g = "Popular"
  · subst h1; decide
  by_cases h2 : g = "trapmambo"
  · subst h2; decide
  by_cases h3 : g = "Electrónica"
  · subst h3; decide
  by_cases h4 : g = "Cumbia"
  · subst h4; decide
  have hg : genreGet g = g := by simp [genreGet, h1, h2, h3, h4]
  rw [hg]; exact hg

/-- The canonical release types contain none of the matched substrings and are
non-empty, and an unmatched value is returned verbatim, so the release-type
rule is a no-op on its own output. -/
theorem mapReleaseType_idem (s : String) :
    mapReleaseType (mapReleaseType s) = mapReleaseType s := by
  by_cases h1 : pyIn "single + video" (pyLower (pyStrip s)) = true
  · have hs : mapReleaseType s = "New Single" := by simp [mapReleaseType, h1]
    rw [hs]; decide
  by_cases h2 : pyIn "album + video" (pyLower (pyStrip s)) = true
  · have hs : mapReleaseType s = "New Album" := by simp [mapReleaseType, h1, h2]
    rw [hs]; decide
  by_cases h3 : pyIn "ep + video" (pyLower (pyStrip s)) = true
  · have hs : mapReleaseType s = "New EP" := by simp [mapReleaseType, h1, h2, h3]
    rw [hs]; decide
  by_cases h4 : pyStrip s = ""
  · have hs : mapReleaseType s = "New Single" := by
      simp only [mapReleaseType, h4]
      simp [h4] at h1 h2 h3
      simp [h1, h2, h3]
    rw [hs]; decide
  have hs : mapReleaseType s = s := by simp [mapReleaseType, h1, h2, h3, h4]
  rw [hs]; exact hs

/-- C6: on records whose genre and release_type hold strings, running the
normalizer twice leaves genre, release_type, label and latin_audience exactly
as after one run. -/
theorem C6_idempotent (api : CountryAPI) (data : Record) (g rt : String)
    (hg : data.genre = Field.str g) (hrt : data.release_type = Field.str rt)
    (r1 : Record) (h1 : apply_business_logic api data = Except.ok r1) :
    ∃ r2, apply_business_logic api r1 = Except.ok r2 ∧
      r2.genre = r1.genre ∧ r2.release_type = r1.release_type ∧
      r2.label = r1.label ∧ r2.latin_audience = r1.latin_audience := by
  obtain ⟨r1', he, hge, hre, hla, hlat⟩ := apply_fields api data g rt hg hrt
  have heq := he.symm.trans h1
  injection heq with heq
  subst heq
  obtain ⟨r2, he2, hge2, hre2, hla2, hlat2⟩ :=
    apply_fields api r1' (genreGet g) (mapReleaseType rt) hge hre
  refine ⟨r2, he2, ?_, ?_, ?_, ?_⟩
  · rw [hge2, hge, genreGet_idem]
  · rw [hre2, hre, mapReleaseType_idem]
  · rw [hla2, hla]
  · rw [hlat2, hlat]

/-- Witness input for claim C6: a mapped genre and a substring-matched release
type. -/
def recC6in : Record := { genre := Field.str "Cumbia", release_type := Field.str "Single + Video" }

/-- One normalizer run on `recC6in`. -/
def recC6out : Record :=
  { label := Field.str "ONErpm", latin_audience := Field.str "Yes",
    genre := Field.str "Tropical", release_type := Field.str "New Single" }

theorem C6_witness :
    ∃ r2, apply_business_logic noApi recC6out = Except.ok r2 ∧
      r2.genre = recC6out.genre ∧ r2.release_type = recC6out.release_type ∧
      r2.label = recC6out.label ∧ r2.latin_audience = recC6out.latin_audience :=
  C6_idempotent noApi recC6in "Cumbia" "Single + Video" rfl rfl recC6out rfl

/-! ### Country-branch case lemmas -/

theorem applyCountry_alpha2_hit (api : CountryAPI) (d : Record) (s n : String)
    (hcc : d.country_code = Field.str s) (hs : s ≠ "") (hlen : s.length = 2)
    (hfound : get_country_name api s = some n) (hn : n ≠ "") :
    applyCountry api d = { d with country_name := Field.str n } := by
  have h0 : d.country_code.get "" = some s := by rw [hcc]; rfl
  simp only [applyCountry, h0, if_neg hs, if_pos hlen, hfound]
  rw [if_pos (by simp [pyTruthy, hn])]
  rfl

theorem applyCountry_alpha2_miss (api : CountryAPI) (d : Record) (s : String)
    (hcc : d.country_code = Field.str s) (hs : s ≠ "") (hlen : s.length = 2)
    (hmiss : pyTruthy (get_country_name api s) = false) :
    applyCountry api d = { d with country_name := Field.str "" } := by
  have h0 : d.country_code.get "" = some s := by rw [hcc]; rfl
  simp only [applyCountry, h0, if_neg hs, if_pos hlen, hmiss]
  rfl

theorem applyCountry_fuzzy_hit (api : CountryAPI) (d : Record) (s : String)
    (c : Country) (cs : List Country)
    (hcc : d.country_code = Field.str s) (hs : s ≠ "") (hlen : ¬s.length = 2)
    (hf : api.search_fuzzy s = .ok (c :: cs)) :
    applyCountry api d =
      { d with country_name := Field.str c.name, country_code := Field.str c.alpha_2 } := by
  have h0 : d.country_code.get "" = some s := by rw [hcc]; rfl
  simp only [applyCountry, h0, if_neg hs, if_neg hlen, hf]

theorem applyCountry_fuzzy_err (api : CountryAPI) (d : Record) (s : String)
    (hcc : d.country_code = Field.str s) (hs : s ≠ "") (hlen : ¬s.length = 2)
    (hf : api.search_fuzzy s = .error ()) :
    applyCountry api d = { d with country_name := Field.str "" } := by
  have h0 : d.country_code.get "" = some s := by rw [hcc]; rfl
  simp only [applyCountry, h0, if_neg hs, if_neg hlen, hf]

/-! ### Claim C2: the country-resolver contract -/

/-- Counterexample input for claim C2: a free-form country the fuzzy lookup
fails on. -/
def recC2 : Record := { release_type := Field.str "x", country_code := Field.str "Atlantis" }

/-- C2 fails as stated: when fuzzy matching raises, only `country_name` is
emptied; the stored `country_code` keeps the unresolvable free-form input
`"Atlantis"` instead of ending up empty. -/
theorem C2_counterexample :
    (apply_business_logic noApi recC2).map Record.country_code = Except.ok (Field.str "Atlantis") ∧
    Field.str "Atlantis" ≠ Field.str "" :=
  ⟨rfl, by decide⟩

/-- Shared case analysis of the country branch of a successful normalizer
run. -/
theorem apply_country_cases (api : CountryAPI) (data : Record) (s rt : String)
    (hcc : data.country_code = Field.str s) (hrt : data.release_type = Field.str rt)
    (hs : s ≠ "") :
    ∃ r, apply_business_logic api data = Except.ok r ∧
      (∀ n, s.length = 2 → get_country_name api s = some n → n ≠ "" →
        r.country_code = Field.str s ∧ r.country_name = Field.str n) ∧
      (s.length = 2 → pyTruthy (get_country_name api s) = false →
        r.country_code = Field.str s ∧ r.country_name = Field.str "") ∧
      (∀ c cs, ¬s.length = 2 → api.search_fuzzy s = Except.ok (c :: cs) →
        r.country_code = Field.str c.alpha_2 ∧ r.country_name = Field.str c.name) ∧
      (¬s.length = 2 → api.search_fuzzy s = Except.error () →
        r.country_code = Field.str s ∧ r.country_name = Field.str "") := by
  have hget : data.release_type.get "" = some rt := by rw [hrt]; rfl
  have hcc' : ({ applyGenre (applyDefaults data) with
      release_type := Field.str (mapReleaseType rt) } : Record).country_code = Field.str s := hcc
  refine ⟨_, apply_eq' api data rt hget, ?_, ?_, ?_, ?_⟩
  · intro n hlen hfound hn
    rw [applyCountry_alpha2_hit api _ s n hcc' hs hlen hfound hn]
    exact ⟨hcc', rfl⟩
  · intro hlen hmiss
    rw [applyCountry_alpha2_miss api _ s hcc' hs hlen hmiss]
    exact ⟨hcc', rfl⟩
  · intro c cs hlen hf
    rw [applyCountry_fuzzy_hit api _ s c cs hcc' hs hlen hf]
    exact ⟨rfl, rfl⟩
  · intro hlen hf
    rw [applyCountry_fuzzy_err api _ s hcc' hs hlen hf]
    exact ⟨hcc', rfl⟩

/-- C2 amended: for a non-empty stored country string, a two-character code is
kept and resolved into `country_name` (empty name on an invalid code), a
successful fuzzy match overwrites both fields with the matched country, and a
fuzzy-lookup failure empties only `country_name` while `country_code` keeps
the original input. -/
theorem C2_amended (api : CountryAPI) (data : Record) (s rt : String)
    (hcc : data.country_code = Field.str s) (hrt : data.release_type = Field.str rt)
    (hs : s ≠ "") :
    ∃ r, apply_business_logic api data = Except.ok r ∧
      (∀ n, s.length = 2 → get_country_name api s = some n → n ≠ "" →
        r.country_code = Field.str s ∧ r.country_name = Field.str n) ∧
      (s.length = 2 → pyTruthy (get_country_name api s) = false →
        r.country_code = Field.str s ∧ r.country_name = Field.str "") ∧
      (∀ c cs, ¬s.length = 2 → api.search_fuzzy s = Except.ok (c :: cs) →
        r.country_code = Field.str c.alpha_2 ∧ r.country_name = Field.str c.name) ∧
      (¬s.length = 2 → api.search_fuzzy s = Except.error () →
        r.country_code = Field.str s ∧ r.country_name = Field.str "") :=
  apply_country_cases api data s rt hcc hrt hs

/-- Witness input for claim C2: a full country name the fuzzy lookup resolves. -/
def recC2w : Record := { release_type := Field.str "x", country_code := Field.str "United States" }

theorem C2_witness :
    ∃ r, apply_business_logic usApi recC2w = Except.ok r ∧
      r.country_code = Field.str "US" ∧ r.country_name = Field.str "United States" := by
  obtain ⟨r, hr, _, _, h3, _⟩ := C2_amended usApi recC2w "United States" "x" rfl rfl (by decide)
  exact ⟨r, hr, h3 { name := "United States", alpha_2 := "US" } [] (by decide) rfl⟩

/-! ### Claim C10: case-insensitive code lookup, original casing kept -/

/-- C10: a stored two-character code is looked up upper-cased in the catalog,
and on success the stored `country_code` keeps the caller's original casing
while `country_name` receives the resolved full name. -/
theorem C10_codecase (api : CountryAPI) (data : Record) (s rt n : String)
    (hcc : data.country_code = Field.str s) (hrt : data.release_type = Field.str rt)
    (hlen : s.length = 2)
    (hup : (api.get_alpha_2 (pyUpper s)).map Country.name = some n) (hn : n ≠ "") :
    ∃ r, apply_business_logic api data = Except.ok r ∧
      r.country_code = Field.str s ∧ r.country_name = Field.str n := by
  have hs : s ≠ "" := by
    intro h
    rw [h] at hlen
    exact absurd hlen (by decide)
  obtain ⟨r, hr, h1, _, _, _⟩ := apply_country_cases api data s rt hcc hrt hs
  exact ⟨r, hr, h1 n hlen hup hn⟩

/-- Witness input for claim C10: a lower-case valid code. -/
def recC10 : Record := { release_type := Field.str "x", country_code := Field.str "us" }

theorem C10_witness :
    ∃ r, apply_business_logic usApi recC10 = Except.ok r ∧
      r.country_code = Field.str "us" ∧ r.country_name = Field.str "United States" :=
  C10_codecase usApi recC10 "us" "x" "United States" rfl rfl (by decide) (by decide) (by decide)

/-! ### Substring containment, characterized -/

theorem isPre_iff (p : List Char) : ∀ l, isPre p l = true ↔ ∃ t, l = p ++ t := by
  induction p with
  | nil => intro l; simp [isPre]
  | cons a ps ih =>
    intro l
    cases l with
    | nil => simp [isPre]
    | cons c cs =>
      simp only [isPre, Bool.and_eq_true, beq_iff_eq, ih, List.cons_append, List.cons.injEq]
      constructor
      · rintro ⟨rfl, t, rfl⟩
        exact ⟨t, rfl, rfl⟩
      · rintro ⟨t, rfl, rfl⟩
        exact ⟨rfl, t, rfl⟩

/-- Python `pat in s` holds exactly when the pattern occurs as a contiguous
substring. -/
theorem containsSub_iff (pat : List Char) : ∀ l, containsSub pat l = true ↔ ∃ u v, l = u ++ pat ++ v := by
  intro l
  induction l with
  | nil =>
    simp only [containsSub, List.isEmpty_iff]
    constructor
    · rintro rfl
      exact ⟨[], [], rfl⟩
    · rintro ⟨u, v, h⟩
      rcases List.append_eq_nil.mp h.symm with ⟨h1, rfl⟩
      exact (List.append_eq_nil.mp h1).2
  | cons c t ih =>
    simp only [containsSub, Bool.or_eq_true, ih, isPre_iff]
    constructor
    · rintro (⟨tl, htl⟩ | ⟨u, v, hv⟩)
      · exact ⟨[], tl, by simpa using htl⟩
      · exact ⟨c :: u, v, by simp [hv]⟩
    · rintro ⟨u, v, h⟩
      cases u with
      | nil =>
        left
        exact ⟨v, by simpa using h⟩
      | cons u0 us =>
        simp only [List.cons_append, List.cons.injEq] at h
        right
        exact ⟨us, v, h.2⟩

/-! ### Claim C3: the release-type rule -/

/-- Counterexample input for claim C3: an unmatched value with surrounding
whitespace. -/
def recC3 : Record := { release_type := Field.str "  Remix  " }

/-- C3 fails as stated: in the no-match branch nothing is written back, so the
field keeps the original untrimmed value `"  Remix  "` rather than the
trimmed `"Remix"` the claim promises. -/
theorem C3_counterexample :
    (apply_business_logic noApi recC3).map Record.release_type = Except.ok (Field.str "  Remix  ") ∧
    Field.str "  Remix  " ≠ Field.str "Remix" :=
  ⟨rfl, by decide⟩

/-- Release-type value of a successful normalizer run. -/
theorem apply_release_type (api : CountryAPI) (data : Record) (s : String)
    (h : data.release_type = Field.str s) :
    ∃ r, apply_business_logic api data = Except.ok r ∧
      r.release_type = Field.str (mapReleaseType s) := by
  have hget : data.release_type.get "" = some s := by rw [h]; rfl
  refine ⟨_, apply_eq' api data s hget, ?_⟩
  have hk := applyCountry_keeps api
    { applyGenre (applyDefaults data) with release_type := Field.str (mapReleaseType s) }
  rw [hk.2.2.2]

/-- C3 amended: the release-type rule lowercases and trims the stored string,
checks substring containment of `"single + video"`, `"album + video"`,
`"ep + video"` in that priority order mapping to the three canonical values,
and maps a trimmed-empty value to `"New Single"`; otherwise the field keeps
the original stored value untrimmed (trimming is only used for matching and
the emptiness test, not written back). -/
theorem C3_amended (api : CountryAPI) (data : Record) (s : String)
    (h : data.release_type = Field.str s) :
    ∃ r, apply_business_logic api data = Except.ok r ∧
      ((∃ u v, (pyLower (pyStrip s)).data = u ++ "single + video".data ++ v) →
        r.release_type = Field.str "New Single") ∧
      (¬(∃ u v, (pyLower (pyStrip s)).data = u ++ "single + video".data ++ v) →
        (∃ u v, (pyLower (pyStrip s)).data = u ++ "album + video".data ++ v) →
        r.release_type = Field.str "New Album") ∧
      (¬(∃ u v, (pyLower (pyStrip s)).data = u ++ "single + video".data ++ v) →
        ¬(∃ u v, (pyLower (pyStrip s)).data = u ++ "album + video".data ++ v) →
        (∃ u v, (pyLower (pyStrip s)).data = u ++ "ep + video".data ++ v) →
        r.release_type = Field.str "New EP") ∧
      (¬(∃ u v, (pyLower (pyStrip s)).data = u ++ "single + video".data ++ v) →
        ¬(∃ u v, (pyLower (pyStrip s)).data = u ++ "album + video".data ++ v) →
        ¬(∃ u v, (pyLower (pyStrip s)).data = u ++ "ep + video".data ++ v) →
        pyStrip s = "" → r.release_type = Field.str "New Single") ∧
      (¬(∃ u v, (pyLower (pyStrip s)).data = u ++ "single + video".data ++ v) →
        ¬(∃ u v, (pyLower (pyStrip s)).data = u ++ "album + video".data ++ v) →
        ¬(∃ u v, (pyLower (pyStrip s)).data = u ++ "ep + video".data ++ v) →
        pyStrip s ≠ "" → r.release_type = Field.str s) := by
  obtain ⟨r, hr, hre⟩ := apply_release_type api data s h
  have conv1 := containsSub_iff "single + video".data (pyLower (pyStrip s)).data
  have conv2 := containsSub_iff "album + video".data (pyLower (pyStrip s)).data
  have conv3 := containsSub_iff "ep + video".data (pyLower (pyStrip s)).data
  refine ⟨r, hr, ?_, ?_, ?_, ?_, ?_⟩
  · intro h1
    rw [hre]
    simp [mapReleaseType, pyIn, conv1.mpr h1]
  · intro h1 h2
    rw [hre]
    have hb1 : containsSub "single + video".data (pyLower (pyStrip s)).data ≠ true :=
      fun hb => h1 (conv1.mp hb)
    simp [mapReleaseType, pyIn, hb1, conv2.mpr h2]
  · intro h1 h2 h3
    rw [hre]
    have hb1 : containsSub "single + video".data (pyLower (pyStrip s)).data ≠ true :=
      fun hb => h1 (conv1.mp hb)
    have hb2 : containsSub "album + video".data (pyLower (pyStrip s)).data ≠ true :=
      fun hb => h2 (conv2.mp hb)
    simp [mapReleaseType, pyIn, hb1, hb2, conv3.mpr h3]
  · intro h1 h2 h3 h4
    have c1 : pyIn "single + video" (pyLower "") = false := by decide
    have c2 : pyIn "album + video" (pyLower "") = false := by decide
    have c3 : pyIn "ep + video" (pyLower "") = false := by decide
    have hs4 : mapReleaseType s = "New Single" := by
      simp [mapReleaseType, h4, c1, c2, c3]
    rw [hre, hs4]
  · intro h1 h2 h3 h4
    rw [hre]
    have hb1 : containsSub "single + video".data (pyLower (pyStrip s)).data ≠ true :=
      fun hb => h1 (conv1.mp hb)
    have hb2 : containsSub "album + video".data (pyLower (pyStrip s)).data ≠ true :=
      fun hb => h2 (conv2.mp hb)
    have hb3 : containsSub "ep + video".data (pyLower (pyStrip s)).data ≠ true :=
      fun hb => h3 (conv3.mp hb)
    simp [mapReleaseType, pyIn, hb1, hb2, hb3, h4]

/-- Witness input for claim C3: a matched release type with stray case and
whitespace. -/
def recC3w : Record := { release_type := Field.str " Single + Video " }

theorem C3_witness :
    ∃ r, apply_business_logic noApi recC3w = Except.ok r ∧
      r.release_type = Field.str "New Single" := by
  obtain ⟨r, hr, h1, _, _, _, _⟩ := C3_amended noApi recC3w " Single + Video " rfl
  exact ⟨r, hr, h1 ⟨[], [], by decide⟩⟩

/-! ### Claim C4: `validate_isrc` -/

/-- The claim's wording of the ISRC shape: exactly 12 characters, the first 2
alphabetic, the next 3 alphanumeric, the last 7 numeric. -/
def isrcSpecCore (l : List Char) : Bool :=
  (l.length == 12) && (l.take 2).all isUpperAZ && ((l.drop 2).take 3).all isUpperAlnum &&
  (l.drop 5).all isDigit09

/-- The source's positional twelve-character pattern coincides with the
claim's length-and-classes description. -/
theorem isrcCore_iff_spec (l : List Char) : isrcCore l = true ↔ isrcSpecCore l = true := by
  rcases l with _ | ⟨a1, _ | ⟨a2, _ | ⟨x1, _ | ⟨x2, _ | ⟨x3, _ | ⟨d1, _ | ⟨d2, _ | ⟨d3, _ | ⟨d4, _ | ⟨d5, _ | ⟨d6, _ | ⟨d7, _ | ⟨e, rest⟩⟩⟩⟩⟩⟩⟩⟩⟩⟩⟩⟩⟩ <;>
    simp [isrcCore, isrcSpecCore, and_assoc]

/-- C4 fails as stated: a valid 12-character code followed by a newline is
accepted, because Python's `$` also matches just before a single trailing
newline; the claim demands `false` for any trailing character. -/
theorem C4_counterexample :
    validate_isrc (some "US5KW1234567\n") = true ∧
    (cleanISRC "US5KW1234567\n").data.length = 13 :=
  ⟨by decide, by decide⟩

/-- C4 amended: `validate_isrc` accepts exactly the strings whose
hyphen-stripped upper-cased form either is precisely 12 characters matching
2 alphabetic, 3 alphanumeric, 7 numeric characters, or is such a 12-character
match followed by one trailing newline (Python `$` semantics); null and empty
input are rejected, lower-case input validates, and hyphens anywhere are
dropped before matching. -/
theorem C4_amended :
    validate_isrc none = false ∧
    ∀ s : String, validate_isrc (some s) = true ↔
      (isrcSpecCore (cleanISRC s).data = true ∨
        ((cleanISRC s).data.getLast? = some '\n' ∧
          isrcSpecCore (cleanISRC s).data.dropLast = true)) := by
  refine ⟨rfl, fun s => ?_⟩
  by_cases hs : s = ""
  · subst hs
    simp [validate_isrc]
    decide
  · simp only [validate_isrc, if_neg hs, reMatchISRC, Bool.or_eq_true, Bool.and_eq_true,
      beq_iff_eq, isrcCore_iff_spec]

theorem C4_witness : validate_isrc (some "us-5kw-12-34567") = true :=
  (C4_amended.2 "us-5kw-12-34567").mpr (Or.inl (by decide))

/-! ### Claim C7: decode failure leaves the session record untouched -/

/-- C7: when the collaborator call fails, or its cleaned response does not
decode, extraction yields no record (so nothing is normalized) and the parse
button leaves the stored session record exactly as it was; a new record
replaces the old one only on decode success. -/
theorem C7_decode_failure (api : CountryAPI) (gen : Except Unit String)
    (loads : String → Except Unit Record) (raw : String) (state : Record)
    (h : gen = Except.error () ∨
      ∀ t, gen = Except.ok t → loads (clean_json_response t) = Except.error ()) :
    parse_release_data api gen loads = none ∧
    parse_button api gen loads raw state = state := by
  have hp : parse_release_data api gen loads = none := by
    rcases h with h | h
    · rw [h]; rfl
    · rcases gen with e | t
      · rfl
      · have ht := h t rfl
        simp [parse_release_data, ht]
  refine ⟨hp, ?_⟩
  unfold parse_button
  rw [hp]
  split <;> rfl

/-- A decoder that fails on every input (models `json.loads` on non-JSON). -/
def badLoads : String → Except Unit Record := fun _ => Except.error ()

/-- Witness fixture for claim C7: a previously stored record. -/
def recC7state : Record := { title := Field.str "kept" }

theorem C7_witness :
    parse_release_data noApi (Except.ok "this is not JSON") badLoads = none ∧
    parse_button noApi (Except.ok "this is not JSON") badLoads "raw text" recC7state = recC7state :=
  C7_decode_failure noApi (Except.ok "this is not JSON") badLoads "raw text" recC7state
    (Or.inr fun _ _ => rfl)

/-! ### Claim C8: submit gating in the review form -/

theorem isrcFormValid_iff (i : String) :
    isrcFormValid i = true ↔ i ≠ "" ∧ validate_isrc (some i) = true := by
  unfold isrcFormValid
  by_cases h1 : i = ""
  · simp [h1]
  · by_cases h2 : validate_isrc (some i) = false
    · simp [h1, h2]
    · simp [h1, h2]

/-- C8: in every state of the review flow, script generation happens only with
a non-empty ISRC accepted by `validate_isrc`, and while the ISRC check fails
the submit control is disabled, nothing is generated, and the stored record
is retained (still rendered for editing). -/
theorem C8_submit_gate (parsed : Record) (w : ReviewInputs) (clicked : Bool) :
    ((review_run parsed w clicked).generated.isSome = true →
      w.isrc ≠ "" ∧ validate_isrc (some w.isrc) = true) ∧
    (isrcFormValid w.isrc = false →
      (review_run parsed w clicked).disabled = true ∧
      (review_run parsed w clicked).generated = none ∧
      (review_run parsed w clicked).parsed = parsed) := by
  unfold review_run
  by_cases hv : isrcFormValid w.isrc = true
  · by_cases hc : clicked = true
    · subst hc
      simp only [hv]
      constructor
      · intro _
        exact (isrcFormValid_iff w.isrc).mp hv
      · intro hvf
        exact absurd hvf (by decide)
    · have hcf : clicked = false := by revert hc; cases clicked <;> simp
      subst hcf
      simp [hv]
  · have hvf : isrcFormValid w.isrc = false := by
      revert hv; cases isrcFormValid w.isrc <;> simp
    simp [hvf]

/-- Witness fixtures for claim C8: a stored record and a form state with an
invalid ISRC. -/
def recC8 : Record := { genre := Field.str "Rock" }

/-- Form inputs with a malformed ISRC. -/
def wBad : ReviewInputs :=
  { artist := "a", title := "t", upc := "", isrc := "BAD", label := "ONErpm",
    release_date := "", country_input := "", description := "", genre := "Rock",
    rtype := "New Single", latin_audience := "Yes" }

theorem C8_witness :
    (review_run recC8 wBad true).disabled = true ∧
    (review_run recC8 wBad true).generated = none ∧
    (review_run recC8 wBad true).parsed = recC8 :=
  (C8_submit_gate recC8 wBad true).2 (by decide)

/-! ### Claim C9: `clean_json_response` removes fences anywhere -/

theorem data_append (s t : String) : (s ++ t).data = s.data ++ t.data := by
  cases s; cases t; rfl

theorem isPre_cons_ne (p0 x : Char) (ps xs : List Char) (h : p0 ≠ x) :
    isPre (p0 :: ps) (x :: xs) = false := by
  simp [isPre, h]

theorem isPre_cons_clean (p0 : Char) (ps l : List Char) (hl : ∀ ch ∈ l, ch ≠ p0) :
    isPre (p0 :: ps) l = false := by
  cases l with
  | nil => rfl
  | cons x xs =>
    have hx : p0 ≠ x := fun he => (hl x (by simp)) he.symm
    exact isPre_cons_ne p0 x ps xs hx

theorem isPre_self_append (p r : List Char) : isPre p (p ++ r) = true := by
  induction p with
  | nil => rfl
  | cons a ps ih => simp [isPre, ih]

theorem drop_len_append (x y : List Char) : (x ++ y).drop x.length = y := by
  induction x with
  | nil => rfl
  | cons a xs ih => simp [ih]

/-- Scanning a stretch free of the pattern's first character copies it
verbatim. -/
theorem removeSub_append_clean (p0 : Char) (ps r : List Char) :
    ∀ a : List Char, (∀ ch ∈ a, ch ≠ p0) →
      removeSub (p0 :: ps) (a ++ r) = a ++ removeSub (p0 :: ps) r := by
  intro a
  induction a with
  | nil => intro _; rfl
  | cons x xs ih =>
    intro ha
    have hx : p0 ≠ x := fun he => (ha x (by simp)) he.symm
    have hrest : ∀ ch ∈ xs, ch ≠ p0 := fun ch hch => ha ch (by simp [hch])
    rw [List.cons_append]
    simp only [removeSub]
    rw [if_neg (by rw [isPre_cons_ne p0 x ps (xs ++ r) hx]; exact Bool.false_ne_true)]
    rw [ih hrest, List.cons_append]

/-- A list free of the pattern's first character is left unchanged. -/
theorem removeSub_clean (p0 : Char) (ps : List Char) (l : List Char)
    (hl : ∀ ch ∈ l, ch ≠ p0) : removeSub (p0 :: ps) l = l := by
  have h := removeSub_append_clean p0 ps [] l hl
  simpa [removeSub] using h

/-- A match at the scan position is deleted and scanning resumes after it. -/
theorem removeSub_head_match (p0 : Char) (ps r : List Char) :
    removeSub (p0 :: ps) ((p0 :: ps) ++ r) = removeSub (p0 :: ps) r := by
  rw [List.cons_append]
  simp only [removeSub]
  rw [if_pos (by rw [← List.cons_append]; exact isPre_self_append (p0 :: ps) r)]
  congr 1
  simp [drop_len_append]

/-- The opening-fence pattern leaves a bare closing fence followed by
tick-free text (not starting with `json`) untouched. -/
theorem removeSub_json_tail (C : List Char) (hC : ∀ ch ∈ C, ch ≠ tick)
    (hcj : isPre ['j', 's', 'o', 'n'] C = false) :
    removeSub (tick :: tick :: tick :: 'j' :: 's' :: 'o' :: 'n' :: [])
        (tick :: tick :: tick :: C) =
      tick :: tick :: tick :: C := by
  have hx2 : isPre (tick :: 'j' :: 's' :: 'o' :: 'n' :: []) C = false :=
    isPre_cons_clean _ _ _ hC
  have hx3 : isPre (tick :: tick :: 'j' :: 's' :: 'o' :: 'n' :: []) C = false :=
    isPre_cons_clean _ _ _ hC
  have hclean : removeSub (tick :: tick :: tick :: 'j' :: 's' :: 'o' :: 'n' :: []) C = C :=
    removeSub_clean _ _ _ hC
  simp [removeSub, isPre, hcj, hx2, hx3, hclean]

/-- C9: `clean_json_response` deletes the fence markers wherever they occur in
the response — also in the middle of the payload — and then strips
surrounding whitespace. -/
theorem C9_fence_removal (a b c : String)
    (ha : ∀ ch ∈ a.data, ch ≠ tick) (hb : ∀ ch ∈ b.data, ch ≠ tick)
    (hc : ∀ ch ∈ c.data, ch ≠ tick)
    (hcj : isPre ['j', 's', 'o', 'n'] c.data = false) :
    clean_json_response (a ++ "```json" ++ b ++ "```" ++ c) = pyStrip (a ++ b ++ c) := by
  have hJ : "```json".data = tick :: tick :: tick :: 'j' :: 's' :: 'o' :: 'n' :: [] := by decide
  have hT : "```".data = tick :: tick :: tick :: [] := by decide
  have hdata : (a ++ "```json" ++ b ++ "```" ++ c).data =
      a.data ++ ("```json".data ++ (b.data ++ ("```".data ++ c.data))) := by
    simp [data_append, List.append_assoc]
  have hlist :
      removeSub "```".data (removeSub "```json".data
        (a.data ++ ("```json".data ++ (b.data ++ ("```".data ++ c.data))))) =
      a.data ++ (b.data ++ c.data) := by
    rw [hJ, hT]
    rw [removeSub_append_clean tick _ _ a.data ha]
    rw [removeSub_head_match tick _ _]
    rw [removeSub_append_clean tick _ _ b.data hb]
    rw [show (tick :: tick :: tick :: [] : List Char) ++ c.data = tick :: tick :: tick :: c.data
      from rfl]
    rw [removeSub_json_tail c.data hc hcj]
    rw [removeSub_append_clean tick _ _ a.data ha]
    rw [removeSub_append_clean tick _ _ b.data hb]
    rw [show (tick :: tick :: tick :: c.data : List Char) = (tick :: tick :: tick :: []) ++ c.data
      from rfl]
    rw [removeSub_head_match tick _ _]
    rw [removeSub_clean tick _ c.data hc]
  show pyStrip (removeOcc (removeOcc _ "```json") "```") = _
  unfold removeOcc pyStrip
  rw [hdata]
  have hrhs : (a ++ b ++ c).data = a.data ++ (b.data ++ c.data) := by
    simp [data_append, List.append_assoc]
  rw [hrhs] at *
  exact congrArg (fun l => (⟨stripList l⟩ : String)) hlist

theorem C9_witness :
    clean_json_response
        ("\x7b\"description\": \"see " ++ "```json" ++ " fence " ++ "```" ++ " end\"\x7d") =
      pyStrip ("\x7b\"description\": \"see " ++ " fence " ++ " end\"\x7d") :=
  C9_fence_removal "\x7b\"description\": \"see " " fence " " end\"\x7d"
    (by decide) (by decide) (by decide) (by decide)

end AmazonPitch
